import Mathlib

/-!
Verification of the Larousse scraper (src/larousse_scraper.py) against its
natural-language specification.

The Python program is embedded shallowly:

* Python strings become Lean `String` (operated on through `List Char`);
* `pathlib` paths become `List String` (one entry per path segment);
* the filesystem becomes an association list from paths to byte lists,
  most recent write first;
* the network becomes an oracle `Net : String → Option Bytes` (`none`
  models a download error or non-2xx status, exactly the cases in which
  `download_asset` returns `False`);
* the rendered page returned by Playwright and parsed by BeautifulSoup is
  abstracted to the parts of the DOM the scraper inspects (stylesheet
  links, scripts, the article with its audio elements and speaker icons,
  and the title element); a failed render is `none`;
* Python exceptions that escape `scrape_larousse` are modelled as an
  explicit outcome constructor rather than nontermination.

Library functions used by the source (`urllib.parse`, `pathlib`,
`os.path.splitext`, `unidecode`) are modelled from their documented
behaviour, restricted where noted to the shapes of input the scraper can
produce.
-/

/-- Bytes of a downloaded resource. -/
abbrev Bytes := List Nat

/-- The network oracle: the body returned by a GET of the url, or `none`
when the request fails (connection error or non-2xx status). -/
abbrev Net := String → Option Bytes

/-- Models Python `s.startswith(p)`. -/
def pyStartsWith (s p : String) : Bool :=
  p.toList.isPrefixOf s.toList

/-- Models Python `s.split(c)[0]`: the part of `s` before the first
occurrence of `c` (all of `s` when `c` does not occur). -/
def takeUntilChar (s : String) (c : Char) : String :=
  (s.toList.takeWhile (fun a => a ≠ c)).asString

/-- Models Python `s.endswith(p)`. -/
def strEndsWith (s p : String) : Bool :=
  p.toList.isSuffixOf s.toList

/-- Join path segments with a slash, modelling how a `pathlib` relative
path renders as a string on a POSIX system. -/
def joinSegs (segs : List String) : String :=
  String.intercalate "/" segs

/-- Last segment of a `pathlib` path, i.e. `Path(...).name` for the paths
the scraper builds (used for `asset_dir.name`). -/
def lastSeg (segs : List String) : String :=
  segs.getLast?.getD ""

/-- Characters that may appear in a URL scheme after the first letter. -/
def isSchemeChar (c : Char) : Bool :=
  c.isAlphanum || c = '+' || c = '-' || c = '.'

/-- Whether a character list is a syntactically valid URL scheme
(nonempty, letter first, then letters, digits, `+`, `-`, `.`), as
`urllib.parse` recognises schemes. -/
def validScheme (cs : List Char) : Bool :=
  match cs with
  | [] => false
  | c :: rest => c.isAlpha && rest.all isSchemeChar

/-- Drop a leading `scheme:` from a character list when present,
following the scheme recognition of `urllib.parse.urlsplit`. -/
def dropScheme (cs : List Char) : List Char :=
  let before := cs.takeWhile (fun c => c ≠ ':')
  if before.length < cs.length && validScheme before then
    (cs.drop before.length).drop 1
  else cs

/-- Drop a leading `//netloc` from a character list when present: after
`//`, the authority extends to the first `/`, `?` or `#`. -/
def dropNetloc (cs : List Char) : List Char :=
  match cs with
  | '/' :: '/' :: rest => rest.dropWhile (fun c => c ≠ '/' && c ≠ '?' && c ≠ '#')
  | _ => cs

/-- Models `urllib.parse.urlparse(url).path`: strip the scheme and the
network location, then keep everything before the query or fragment. -/
def urlparsePath (url : String) : String :=
  ((dropNetloc (dropScheme url.toList)).takeWhile (fun c => c ≠ '?' && c ≠ '#')).asString

/-- Models `pathlib.PurePosixPath(p).name`: the last path component,
after empty components and single-dot components are discarded. -/
def pathlibName (p : String) : String :=
  (((p.toList.splitOn '/').map List.asString).filter
      (fun seg => seg ≠ "" && seg ≠ ".")).getLast?.getD ""

/-- Models `pathlib.PurePosixPath(p).stem` on a name `n`: the name with
its suffix removed, where a suffix starts at the last dot only when that
dot is neither the first nor the last character of the name. -/
def stemOfName (n : String) : String :=
  let cs := n.toList
  let i := (cs.reverse.takeWhile (fun c => c ≠ '.')).length
  -- distance from the end to the last dot; `i = cs.length` when no dot
  if i = 0 || i = cs.length || cs.length - i = 0 then n
  else if cs.length - i - 1 = 0 then n  -- the last dot is the first character
  else (cs.take (cs.length - i - 1)).asString

/-- Models `pathlib.PurePosixPath(p).stem` for a whole path. -/
def pathlibStem (p : String) : String :=
  stemOfName (pathlibName p)

/-- Scan of a reversed character list for the extension split point of
`os.path.splitext`: the first dot from the end counts as the start of the
extension only when some character before it (in the original order) is
not a dot. Returns the reversed extension (dot included) and the reversed
base when such a dot exists. -/
def extSplitRev : List Char → Option (List Char × List Char)
  | [] => none
  | c :: rest =>
    if c = '.' then
      if rest.any (fun a => a ≠ '.') then some ([c], rest) else none
    else
      match extSplitRev rest with
      | some (e, b) => some (c :: e, b)
      | none => none

/-- Models `os.path.splitext` on a bare file name (the scraper only ever
applies it to names without path separators): split off the extension
starting at the last dot, unless every character before that dot is
itself a dot. -/
def splitext (s : String) : String × String :=
  match extSplitRev s.toList.reverse with
  | some (e, b) => (b.reverse.asString, e.reverse.asString)
  | none => (s, "")

/-- Transliteration table of the `unidecode` library for the non-ASCII
characters modelled here (the French diacritics the dictionary uses);
code points outside the table are modelled by the empty replacement the
library uses for unmapped characters. -/
def uniTable (c : Char) : List Char :=
  if c = 'é' ∨ c = 'è' ∨ c = 'ê' ∨ c = 'ë' then ['e']
  else if c = 'à' ∨ c = 'â' ∨ c = 'ä' then ['a']
  else if c = 'î' ∨ c = 'ï' then ['i']
  else if c = 'ô' ∨ c = 'ö' then ['o']
  else if c = 'û' ∨ c = 'ù' ∨ c = 'ü' then ['u']
  else if c = 'ç' then ['c']
  else if c = 'œ' then ['o', 'e']
  else []

/-- Per-character behaviour of `unidecode.unidecode`: ASCII code points
pass through unchanged, other code points are replaced by an ASCII
transliteration. -/
def unidecodeChar (c : Char) : List Char :=
  if c.toNat < 128 then [c] else uniTable c

/-- Models `unidecode.unidecode`: concatenation of the per-character
transliterations. -/
def unidecode (s : String) : String :=
  (s.toList.map unidecodeChar).flatten.asString

-- -------- Configuration (source lines 15-16) --------

/-- `ROOT_DIR = pathlib.Path("Learning/French/Larousse")`, as segments. -/
def ROOT_DIR : List String := ["Learning", "French", "Larousse"]

/-- `BASE_URL = "https://www.larousse.fr"`. -/
def BASE_URL : String := "https://www.larousse.fr"

-- -------- Helper functions of the source --------

/-- Models `ensure_paths` (source lines 20-33): the directories created
for a word, in creation order. -/
def ensure_paths (word : String) : List (List String) :=
  let word_dir := ROOT_DIR ++ [word]
  [word_dir, word_dir ++ ["audio"], word_dir ++ ["css"], word_dir ++ ["js"]]

/-- Models `urllib.parse.urljoin(BASE_URL, rel)` for a relative reference
`rel`, specialised to the fixed base `BASE_URL` (scheme `https`, empty
path): scheme-relative, absolute-path, query-only and fragment-only
references attach to the base; a reference carrying its own scheme is
returned unchanged; any other nonempty reference is resolved against the
empty base path. Dot-segment normalisation is not modelled; no claim
exercises it. -/
def urljoinBase (rel : String) : String :=
  let cs := rel.toList
  if cs = [] then BASE_URL
  else if pyStartsWith rel "//" then "https:" ++ rel
  else if validScheme (cs.takeWhile (fun c => c ≠ ':')) &&
          (cs.takeWhile (fun c => c ≠ ':')).length < cs.length then rel
  else if pyStartsWith rel "/" ∨ pyStartsWith rel "?" ∨ pyStartsWith rel "#" then
    BASE_URL ++ rel
  else BASE_URL ++ "/" ++ rel

/-- Models `absolute_url` (source lines 39-41). -/
def absolute_url (path_or_url : String) : String :=
  if pyStartsWith path_or_url "http" then path_or_url else urljoinBase path_or_url

/-- Models `build_url` (source lines 44-49). -/
def build_url (word_or_url : String) (direction : String) : String :=
  if pyStartsWith word_or_url "http" then word_or_url
  else BASE_URL ++ "/dictionnaires/" ++ direction ++ "/" ++ word_or_url

/-- The candidate local file name derived from a URL in `get_local_path`
(source lines 69-71): the name of the URL path, with anything from the
first `?` or `#` stripped. -/
def derivedName (url : String) : String :=
  takeUntilChar (takeUntilChar (pathlibName (urlparsePath url)) '?') '#'

/-- The extension map of `get_local_path` (source lines 74-75):
`{'css': '.css', 'js': '.js', 'audio': '.mp3'}` with default `.asset`,
keyed by the name of the asset directory. -/
def ext_map (dirName : String) : String :=
  if dirName = "css" then ".css"
  else if dirName = "js" then ".js"
  else if dirName = "audio" then ".mp3"
  else ".asset"

/-- Models `get_local_path` (source lines 65-85). The `try/except` of the
source can only be entered through library exceptions that the pure model
cannot raise, so the `except` branch is dead here. The python parameter
named like the reserved word is rendered `pfx`. -/
def get_local_path (url : String) (asset_dir : List String) (pfx : String) (idx : Nat) :
    List String :=
  let parsed_name := derivedName url
  let dirName := lastSeg asset_dir
  let parsed_name :=
    if parsed_name = "" ∨ parsed_name.length > 100 then
      pfx ++ "_" ++ Nat.repr idx ++ ext_map dirName
    else parsed_name
  let parsed_name :=
    if dirName = "audio" then (splitext parsed_name).1 ++ ".mp3" else parsed_name
  asset_dir ++ [parsed_name]

/-- The raw word of `scrape_larousse` (source lines 96-103): the stem of
the URL path for URL inputs, the input itself otherwise, with the fixed
fallback label for an empty result. -/
def rawWordOf (word_or_url : String) : String :=
  let raw_word :=
    if pyStartsWith word_or_url "http" then pathlibStem (urlparsePath word_or_url)
    else word_or_url
  if raw_word = "" then "entry" else raw_word

/-- The sanitized word of `scrape_larousse` (source line 106), the
identifier that drives every output path. -/
def safeNameOf (word_or_url : String) : String :=
  unidecode (rawWordOf word_or_url)

-- -------- Documents, filesystem and network effects --------

/-- A reference element as the scraper sees it: a stylesheet `link`
(attribute `href`), a `script` or an `audio` element (attribute `src`),
abstracted to the one attribute the scraper reads and writes. `none`
models an absent attribute, `some ""` an empty one; both are falsy for
Python `element.get(...)`. -/
structure RefElem where
  src : Option String
deriving DecidableEq

/-- A stylesheet link element together with whether it sits inside the
`head` element (the final document serialises only the head ones). -/
structure CssLink where
  inHead : Bool
  elem : RefElem
deriving DecidableEq

/-- The content region (`article`) as far as the scraper inspects it: its
audio elements in document order and the number of speaker icon spans. -/
structure Article where
  audios : List RefElem
  speakerIcons : Nat
deriving DecidableEq

/-- The rendered page as parsed by BeautifulSoup, abstracted to the parts
the scraper reads: all stylesheet links of the document (scanned
document-wide at source line 151), all script elements, the content
region selected by the three fallback selectors (source lines 131-133,
`none` when no selector matches), and the title element (`none` when the
document has no title element, `some t` when it exists with `.string`
equal to `t`). -/
structure Document where
  cssLinks : List CssLink
  scripts : List RefElem
  article : Option Article
  titleText : Option (Option String)

/-- The filesystem seen by the scraper: an association list from paths to
written bytes, most recent write first. -/
abbrev Store := List (List String × Bytes)

/-- Models `Path.write_bytes`: a later write to the same path shadows an
earlier one. -/
def Store.write (fs : Store) (p : List String) (b : Bytes) : Store :=
  (p, b) :: fs

/-- The current content of a file, `none` when it was never written. -/
def Store.read (fs : Store) (p : List String) : Option Bytes :=
  (fs.find? (fun e => e.1 == p)).map (fun e => e.2)

/-- Models `download_asset` (source lines 52-63): on success the response
bytes are written to `out_path` and `True` is returned; on a request
error or non-2xx status nothing is written and `False` is returned. -/
def download_asset (net : Net) (url : String) (out_path : List String) (fs : Store) :
    Bool × Store :=
  match net url with
  | some b => (true, fs.write out_path b)
  | none => (false, fs)

/-- Truthiness of `element.get(attr)` for an attribute value. -/
def truthy (s : Option String) : Bool :=
  match s with
  | some v => v ≠ ""
  | none => false

/-- Models `os.path.relpath(p, base)` for the calls of the scraper, where
`base` is always a proper prefix of `p`. -/
def relpathUnder (p base : List String) : String :=
  joinSegs (p.drop base.length)

/-- State threaded through the localization loops: the URLs passed to
`requests.get` so far, in order, and the filesystem. -/
structure Loc where
  attempts : List String
  fs : Store
deriving DecidableEq

-- -------- Asset localization (source lines 149-189) --------

/-- One iteration of the stylesheet and script loops (source lines
151-160 and 164-173): an element whose source attribute is missing or
empty is left untouched; otherwise the URL is resolved, the local path
derived and the download attempted — on success the source attribute is
rewritten to the path relative to the word directory, on failure the
element is removed (`decompose`). Returns the resulting element (`none`
for a removed one), the state afterwards, and the success flag. -/
def localizeStep (net : Net) (asset_dir word_dir : List String) (pfx : String)
    (idx : Nat) (r : RefElem) (st : Loc) : Option RefElem × Loc × Bool :=
  match r.src with
  | none => (some r, st, false)
  | some s =>
    if s = "" then (some r, st, false)
    else
      let orig := absolute_url s
      let local_path := get_local_path orig asset_dir pfx idx
      let dl := download_asset net orig local_path st.fs
      if dl.1 then
        (some { src := some (relpathUnder local_path word_dir) },
         { attempts := st.attempts ++ [orig], fs := dl.2 }, true)
      else
        (none, { attempts := st.attempts ++ [orig], fs := dl.2 }, false)

/-- The stylesheet and script loops: `enumerate` over the elements,
threading the state, collecting per-element results (`none` for removed
elements) and the per-kind success count. -/
def localizeLoop (net : Net) (asset_dir word_dir : List String) (pfx : String) :
    Nat → List RefElem → Loc → List (Option RefElem) × Loc × Nat
  | _, [], st => ([], st, 0)
  | idx, r :: rs, st =>
    let step := localizeStep net asset_dir word_dir pfx idx r st
    let rest := localizeLoop net asset_dir word_dir pfx (idx + 1) rs step.2.1
    (step.1 :: rest.1, rest.2.1, (if step.2.2 then 1 else 0) + rest.2.2)

/-- One iteration of the audio loop (source lines 179-189): an element
whose source attribute is missing or empty is left untouched; otherwise
the asset is downloaded (on success the bytes are written and the local
path recorded for the speaker-icon replacement) and the element is
removed unconditionally. Returns the resulting element, the state, the
success flag, and the local paths recorded by this iteration. -/
def audioStep (net : Net) (audio_dir _word_dir : List String) (word : String)
    (idx : Nat) (r : RefElem) (st : Loc) :
    Option RefElem × Loc × Bool × List (List String) :=
  match r.src with
  | none => (some r, st, false, [])
  | some s =>
    if s = "" then (some r, st, false, [])
    else
      let orig := absolute_url s
      let local_path := get_local_path orig audio_dir word idx
      let dl := download_asset net orig local_path st.fs
      (none, { attempts := st.attempts ++ [orig], fs := dl.2 }, dl.1,
       if dl.1 then [local_path] else [])

/-- The audio loop, collecting also the ordered list of local paths of
the successfully downloaded audio files (`audio_links`, kept here as
paths; the href strings are their `relpathUnder` renderings). -/
def audioLoop (net : Net) (audio_dir word_dir : List String) (word : String) :
    Nat → List RefElem → Loc → List (Option RefElem) × Loc × Nat × List (List String)
  | _, [], st => ([], st, 0, [])
  | idx, r :: rs, st =>
    let step := audioStep net audio_dir word_dir word idx r st
    let rest := audioLoop net audio_dir word_dir word (idx + 1) rs step.2.1
    (step.1 :: rest.1, rest.2.1,
     (if step.2.2.1 then 1 else 0) + rest.2.2.1, step.2.2.2 ++ rest.2.2.2)

-- -------- Document assembly and the whole run --------

/-- Models the Python expression `x or y` on an optional string (`None`
and the empty string both select the fallback). -/
def titleOr (t : Option String) (fallback : String) : String :=
  match t with
  | some s => if s = "" then fallback else s
  | none => fallback

/-- The final standalone document (source lines 210-228), abstracted to
the data the f-string interpolates: the title, the surviving stylesheet
link elements of the head, the hrefs of the anchors that replaced
speaker icons, and the surviving script elements that have a source. -/
structure FinalDoc where
  title : String
  headLinks : List RefElem
  audioAnchors : List String
  bodyScripts : List RefElem
deriving DecidableEq

/-- How one call of `scrape_larousse` ends. `renderFailed` is the caught
Playwright failure (source lines 125-127), `noArticle` the missing
content region (lines 135-137), `raisedNoTitle` the `AttributeError` of
line 208 when the document has no title element (it propagates out of
`scrape_larousse`), and `wrote` the successful write of the output file
(line 232). -/
inductive Outcome where
  | renderFailed
  | noArticle
  | raisedNoTitle
  | wrote (path : List String) (doc : FinalDoc)
deriving DecidableEq

/-- The title of the written document, when one was written. -/
def Outcome.titleOf : Outcome → Option String
  | .wrote _ d => some d.title
  | _ => none

/-- Observable behaviour of one `scrape_larousse` call: the directories
created, the download attempts in order, the files written, the
per-element results of the three localization loops (the stylesheet ones
keeping their head flag), the recorded audio paths, the three success
counters, and the outcome. The written HTML text itself is represented
by the `wrote` outcome rather than by a `Store` entry. -/
structure ScrapeResult where
  dirs : List (List String)
  attempts : List String
  fs : Store
  cssOut : List (Option CssLink)
  jsOut : List (Option RefElem)
  audioOut : List (Option RefElem)
  audioPaths : List (List String)
  cssCount : Nat
  jsCount : Nat
  audioCount : Nat
  outcome : Outcome

/-- Models `scrape_larousse` (source lines 90-238). The page render is an
oracle argument: `none` stands for a Playwright launch, navigation or
timeout failure, `some doc` for the parsed rendered page. The link
neutralization pass (lines 139-145) only renames anchor elements inside
the article and deletes their navigation attributes; no modelled
structure contains them, so it contributes nothing here. -/
def scrape_larousse (net : Net) (render : Option Document)
    (word_or_url direction : String) : ScrapeResult :=
  let word := safeNameOf word_or_url
  let word_dir := ROOT_DIR ++ [word]
  let dirs := ensure_paths word
  let _url := build_url word_or_url direction
  match render with
  | none =>
    { dirs := dirs, attempts := [], fs := [], cssOut := [], jsOut := [],
      audioOut := [], audioPaths := [], cssCount := 0, jsCount := 0,
      audioCount := 0, outcome := .renderFailed }
  | some doc =>
    match doc.article with
    | none =>
      { dirs := dirs, attempts := [], fs := [], cssOut := [], jsOut := [],
        audioOut := [], audioPaths := [], cssCount := 0, jsCount := 0,
        audioCount := 0, outcome := .noArticle }
    | some art =>
      let cssRes := localizeLoop net (word_dir ++ ["css"]) word_dir "style" 0
        (doc.cssLinks.map CssLink.elem) { attempts := [], fs := [] }
      let jsRes := localizeLoop net (word_dir ++ ["js"]) word_dir "script" 0
        doc.scripts cssRes.2.1
      let audRes := audioLoop net (word_dir ++ ["audio"]) word_dir word 0
        art.audios jsRes.2.1
      let cssOutFlagged := List.zipWith
        (fun (cl : CssLink) (o : Option RefElem) =>
          o.map (fun e => { inHead := cl.inHead, elem := e }))
        doc.cssLinks cssRes.1
      let audioAnchors :=
        ((audRes.2.2.2.map (fun p => relpathUnder p word_dir)).take art.speakerIcons)
      match doc.titleText with
      | none =>
        { dirs := dirs, attempts := audRes.2.1.attempts, fs := audRes.2.1.fs,
          cssOut := cssOutFlagged, jsOut := jsRes.1, audioOut := audRes.1,
          audioPaths := audRes.2.2.2, cssCount := cssRes.2.2,
          jsCount := jsRes.2.2, audioCount := audRes.2.2.1,
          outcome := .raisedNoTitle }
      | some t =>
        let title := titleOr t ("Entry for " ++ word)
        let headLinks :=
          ((cssOutFlagged.filterMap id).filter (fun cl => cl.inHead)).map CssLink.elem
        let bodyScripts := (jsRes.1.filterMap id).filter (fun r => truthy r.src)
        { dirs := dirs, attempts := audRes.2.1.attempts, fs := audRes.2.1.fs,
          cssOut := cssOutFlagged, jsOut := jsRes.1, audioOut := audRes.1,
          audioPaths := audRes.2.2.2, cssCount := cssRes.2.2,
          jsCount := jsRes.2.2, audioCount := audRes.2.2.1,
          outcome := .wrote (word_dir ++ [word ++ ".html"])
            { title := title, headLinks := headLinks,
              audioAnchors := audioAnchors, bodyScripts := bodyScripts } }

-- -------- Ghost characterizations of the loops --------

/-- The URL requested by one loop iteration (empty when the element is
skipped). -/
def elemAttempt (r : RefElem) : List String :=
  match r.src with
  | none => []
  | some s => if s = "" then [] else [absolute_url s]

/-- The file written by one loop iteration: the derived local path and
the downloaded bytes, present exactly when the download succeeds. -/
def elemWrite (net : Net) (asset_dir : List String) (pfx : String) (idx : Nat)
    (r : RefElem) : Option (List String × Bytes) :=
  match r.src with
  | none => none
  | some s =>
    if s = "" then none
    else (net (absolute_url s)).map
      (fun b => (get_local_path (absolute_url s) asset_dir pfx idx, b))

/-- The element produced by one stylesheet or script iteration: skipped
elements survive unchanged, successful ones get the relative local path
as their source, failed ones are removed. -/
def elemOutCssJs (net : Net) (asset_dir word_dir : List String) (pfx : String)
    (idx : Nat) (r : RefElem) : Option RefElem :=
  match r.src with
  | none => some r
  | some s =>
    if s = "" then some r
    else if (net (absolute_url s)).isSome then
      let p := get_local_path (absolute_url s) asset_dir pfx idx
      some { src := some (relpathUnder p word_dir) }
    else none

/-- The element produced by one audio iteration: skipped elements survive
unchanged, every element with a nonempty source is removed. -/
def elemOutAudio (r : RefElem) : Option RefElem :=
  match r.src with
  | none => some r
  | some s => if s = "" then some r else none

/-- All files written by a loop, in processing order. -/
def loopWrites (net : Net) (asset_dir : List String) (pfx : String) :
    Nat → List RefElem → List (List String × Bytes)
  | _, [] => []
  | idx, r :: rs =>
    (elemWrite net asset_dir pfx idx r).toList ++ loopWrites net asset_dir pfx (idx + 1) rs

/-- The per-element results of a stylesheet or script loop. -/
def loopOuts (net : Net) (asset_dir word_dir : List String) (pfx : String) :
    Nat → List RefElem → List (Option RefElem)
  | _, [] => []
  | idx, r :: rs =>
    elemOutCssJs net asset_dir word_dir pfx idx r ::
      loopOuts net asset_dir word_dir pfx (idx + 1) rs

/-- The success count of a loop. -/
def loopCount (net : Net) (asset_dir : List String) (pfx : String) :
    Nat → List RefElem → Nat
  | _, [] => 0
  | idx, r :: rs =>
    (if (elemWrite net asset_dir pfx idx r).isSome then 1 else 0) +
      loopCount net asset_dir pfx (idx + 1) rs

/-- The paths recorded in a run of the audio loop. -/
def pathsOf (fs : Store) : List (List String) :=
  fs.map Prod.fst

-- -------- The C1 invariant, read off the claim --------

/-- The C1 property for one discovered reference of a stylesheet or
script kind, stated from the claim over the per-element result `out` and
the final filesystem: an element with a missing or empty source is not a
discovered reference; otherwise the download must have succeeded with
the source attribute rewritten to the relative local path and the local
file holding exactly the downloaded bytes, unless the element is absent
from the final document. -/
def refOk (net : Net) (asset_dir word_dir : List String) (pfx : String) (fs : Store)
    (idx : Nat) (r : RefElem) (out : Option RefElem) : Bool :=
  match r.src with
  | none => true
  | some s =>
    if s = "" then true
    else
      let orig := absolute_url s
      let p := get_local_path orig asset_dir pfx idx
      ((net orig).isSome &&
        decide (out = some { src := some (relpathUnder p word_dir) }) &&
        decide (fs.read p = net orig)) ||
      decide (out = none)

/-- Conjunction of `refOk` over the elements of one kind, paired with the
per-element results positionally. -/
def allRefOk (net : Net) (asset_dir word_dir : List String) (pfx : String) :
    Nat → List RefElem → List (Option RefElem) → Store → Bool
  | _, [], _, _ => true
  | _, _ :: _, [], _ => true
  | idx, r :: rs, o :: os, fs =>
    refOk net asset_dir word_dir pfx fs idx r o &&
      allRefOk net asset_dir word_dir pfx (idx + 1) rs os fs

/-- The C1 claim for one completed run: every discovered stylesheet,
script and audio reference either succeeded (source rewritten to a local
path whose file holds a byte-identical copy of the downloaded content)
or is absent from the final document, and every audio-derived anchor
points at an existing local file. -/
def C1check (net : Net) (doc : Document) (word_or_url direction : String) : Bool :=
  let res := scrape_larousse net (some doc) word_or_url direction
  let word := safeNameOf word_or_url
  let word_dir := ROOT_DIR ++ [word]
  let audios := match doc.article with
    | some a => a.audios
    | none => []
  let icons := match doc.article with
    | some a => a.speakerIcons
    | none => 0
  allRefOk net (word_dir ++ ["css"]) word_dir "style" 0
      (doc.cssLinks.map CssLink.elem) (res.cssOut.map (fun o => o.map CssLink.elem))
      res.fs &&
    allRefOk net (word_dir ++ ["js"]) word_dir "script" 0
      doc.scripts res.jsOut res.fs &&
    allRefOk net (word_dir ++ ["audio"]) word_dir word 0
      audios res.audioOut res.fs &&
    (res.audioPaths.take icons).all (fun p => (res.fs.read p).isSome)

-- -------- Helper lemmas --------

/-- Reversing the singleton-or-empty list of an option is the identity. -/
theorem optToList_reverse {α : Type} (o : Option α) : o.toList.reverse = o.toList := by
  cases o <;> rfl

/-- One stylesheet or script iteration, characterised: the produced
element and the success flag depend only on the element and its index,
the state grows by the attempt and the write of this element. -/
theorem localizeStep_eq (net : Net) (asset_dir word_dir : List String) (pfx : String)
    (idx : Nat) (r : RefElem) (st : Loc) :
    localizeStep net asset_dir word_dir pfx idx r st =
      (elemOutCssJs net asset_dir word_dir pfx idx r,
       { attempts := st.attempts ++ elemAttempt r,
         fs := (elemWrite net asset_dir pfx idx r).toList ++ st.fs },
       (elemWrite net asset_dir pfx idx r).isSome) := by
  cases hr : r.src with
  | none => simp [localizeStep, elemOutCssJs, elemAttempt, elemWrite, hr]
  | some s =>
    by_cases hs : s = ""
    · simp [localizeStep, elemOutCssJs, elemAttempt, elemWrite, hr, hs]
    · cases hnet : net (absolute_url s) <;>
        simp [localizeStep, elemOutCssJs, elemAttempt, elemWrite, download_asset,
          Store.write, hr, hs, hnet]

/-- One audio iteration, characterised likewise; the recorded paths of
the iteration are the paths of its writes. -/
theorem audioStep_eq (net : Net) (audio_dir word_dir : List String) (word : String)
    (idx : Nat) (r : RefElem) (st : Loc) :
    audioStep net audio_dir word_dir word idx r st =
      (elemOutAudio r,
       { attempts := st.attempts ++ elemAttempt r,
         fs := (elemWrite net audio_dir word idx r).toList ++ st.fs },
       (elemWrite net audio_dir word idx r).isSome,
       (elemWrite net audio_dir word idx r).toList.map Prod.fst) := by
  cases hr : r.src with
  | none => simp [audioStep, elemOutAudio, elemAttempt, elemWrite, hr]
  | some s =>
    by_cases hs : s = ""
    · simp [audioStep, elemOutAudio, elemAttempt, elemWrite, hr, hs]
    · cases hnet : net (absolute_url s) <;>
        simp [audioStep, elemOutAudio, elemAttempt, elemWrite, download_asset,
          Store.write, hr, hs, hnet]

/-- The whole stylesheet or script loop, characterised by the ghost
functions. -/
theorem localizeLoop_eq (net : Net) (asset_dir word_dir : List String) (pfx : String)
    (rs : List RefElem) (idx : Nat) (st : Loc) :
    localizeLoop net asset_dir word_dir pfx idx rs st =
      (loopOuts net asset_dir word_dir pfx idx rs,
       { attempts := st.attempts ++ (rs.map elemAttempt).flatten,
         fs := (loopWrites net asset_dir pfx idx rs).reverse ++ st.fs },
       loopCount net asset_dir pfx idx rs) := by
  induction rs generalizing idx st with
  | nil => simp [localizeLoop, loopOuts, loopWrites, loopCount]
  | cons r rs ih =>
    simp only [localizeLoop, localizeStep_eq, loopOuts, loopWrites, loopCount, ih,
      List.map_cons, List.flatten_cons, List.reverse_append, optToList_reverse,
      List.append_assoc]

/-- The whole audio loop, characterised by the ghost functions; the
recorded paths are the paths of the loop writes, in order. -/
theorem audioLoop_eq (net : Net) (audio_dir word_dir : List String) (word : String)
    (rs : List RefElem) (idx : Nat) (st : Loc) :
    audioLoop net audio_dir word_dir word idx rs st =
      (rs.map elemOutAudio,
       { attempts := st.attempts ++ (rs.map elemAttempt).flatten,
         fs := (loopWrites net audio_dir word idx rs).reverse ++ st.fs },
       loopCount net audio_dir word idx rs,
       (loopWrites net audio_dir word idx rs).map Prod.fst) := by
  induction rs generalizing idx st with
  | nil => simp [audioLoop, loopWrites, loopCount]
  | cons r rs ih =>
    simp only [audioLoop, audioStep_eq, loopWrites, loopCount, ih, List.map_cons,
      List.flatten_cons, List.reverse_append, optToList_reverse, List.append_assoc,
      List.map_append]

/-- Reading a one-step-extended store. -/
theorem store_read_cons (e : List String × Bytes) (l : Store) (p : List String) :
    Store.read (e :: l) p = if e.1 = p then some e.2 else Store.read l p := by
  by_cases h : e.1 = p
  · rw [Store.read, List.find?_cons_of_pos _ (by simp [h])]
    simp [h]
  · rw [Store.read, List.find?_cons_of_neg _ (by simp [h]), if_neg h]
    rfl

/-- A read skips over a block of writes whose paths all differ from the
read path. -/
theorem store_read_append_right (l1 l2 : Store) (p : List String)
    (h : p ∉ pathsOf l1) : Store.read (l1 ++ l2) p = Store.read l2 p := by
  induction l1 with
  | nil => rfl
  | cons e l ih =>
    simp only [pathsOf, List.map_cons, List.mem_cons, not_or] at h
    rw [List.cons_append, store_read_cons, if_neg (fun he => h.1 he.symm)]
    exact ih (by simpa [pathsOf] using h.2)

/-- In a store whose paths are pairwise distinct, a read returns the
entry that carries the path. -/
theorem store_read_of_mem_nodup (l : Store) (p : List String) (b : Bytes)
    (hmem : (p, b) ∈ l) (hnd : (pathsOf l).Nodup) : Store.read l p = some b := by
  induction l with
  | nil => simp at hmem
  | cons e l ih =>
    simp only [pathsOf, List.map_cons, List.nodup_cons] at hnd
    rcases List.mem_cons.mp hmem with h | h
    · rw [store_read_cons, if_pos (by rw [← h])]
      rw [← h]
    · have hne : e.1 ≠ p := by
        intro he
        exact hnd.1 (he ▸ List.mem_map.mpr ⟨(p, b), h, rfl⟩)
      rw [store_read_cons, if_neg hne]
      exact ih h (by simpa [pathsOf] using hnd.2)

/-- A read into a store that contains the path somewhere returns some
content. -/
theorem store_read_isSome_of_mem (l1 l2 : Store) (p : List String)
    (h : p ∈ pathsOf l1) : (Store.read (l1 ++ l2) p).isSome = true := by
  induction l1 with
  | nil => simp [pathsOf] at h
  | cons e l ih =>
    rw [List.cons_append, store_read_cons]
    by_cases he : e.1 = p
    · simp [he]
    · rw [if_neg he]
      have h0 : p ∈ e.1 :: pathsOf l := h
      rcases List.mem_cons.mp h0 with h1 | h1
      · exact absurd h1.symm he
      · exact ih h1

/-- Every path derived by `get_local_path` extends the asset directory by
exactly one file name. -/
theorem get_local_path_shape (url : String) (dir : List String) (pfx : String)
    (idx : Nat) : ∃ n, get_local_path url dir pfx idx = dir ++ [n] :=
  ⟨_, rfl⟩

/-- A successful write of one iteration targets a path inside the asset
directory. -/
theorem elemWrite_path (net : Net) (dir : List String) (pfx : String) (idx : Nat)
    (r : RefElem) (w : List String × Bytes)
    (h : elemWrite net dir pfx idx r = some w) : ∃ n, w.1 = dir ++ [n] := by
  cases hr : r.src with
  | none => simp [elemWrite, hr] at h
  | some s =>
    by_cases hs : s = ""
    · simp [elemWrite, hr, hs] at h
    · simp only [elemWrite, hr, if_neg hs] at h
      cases hnet : net (absolute_url s) with
      | none => rw [hnet] at h; simp at h
      | some b =>
        rw [hnet] at h
        have hw : w = (get_local_path (absolute_url s) dir pfx idx, b) := by
          simpa using h.symm
        obtain ⟨m, hm⟩ := get_local_path_shape (absolute_url s) dir pfx idx
        exact ⟨m, by rw [hw, hm]⟩

/-- Every write of a whole loop targets a path inside the asset
directory. -/
theorem loopWrites_shape (net : Net) (dir : List String) (pfx : String) :
    ∀ (rs : List RefElem) (idx : Nat) (w : List String × Bytes),
      w ∈ loopWrites net dir pfx idx rs → ∃ n, w.1 = dir ++ [n] := by
  intro rs
  induction rs with
  | nil => intro idx w h; simp [loopWrites] at h
  | cons r rs ih =>
    intro idx w h
    rcases List.mem_append.mp h with h | h
    · cases hw : elemWrite net dir pfx idx r with
      | none => rw [hw] at h; simp at h
      | some e =>
        rw [hw] at h
        simp only [Option.toList_some, List.mem_singleton] at h
        exact h ▸ elemWrite_path net dir pfx idx r e hw
    · exact ih (idx + 1) w h

/-- Writes of a loop over one asset subdirectory never hit a file of a
differently named subdirectory of the same word directory. -/
theorem notMem_loopWrites_of_ne (net : Net) (wd : List String) (d1 d2 : String)
    (pfx : String) (n : String) (hne : d1 ≠ d2) (rs : List RefElem) (idx : Nat) :
    (wd ++ [d1, n]) ∉ pathsOf (loopWrites net (wd ++ [d2]) pfx idx rs) := by
  intro hmem
  rcases List.mem_map.mp hmem with ⟨w, hw, hfst⟩
  obtain ⟨m, hm⟩ := loopWrites_shape net (wd ++ [d2]) pfx rs idx w hw
  have heq : wd ++ [d2, m] = wd ++ [d1, n] := by
    have hstep : wd ++ [d2, m] = w.1 := by rw [hm]; simp
    rw [hstep, hfst]
  have h2 : ([d2, m] : List String) = [d1, n] := List.append_cancel_left heq
  have h3 : d2 = d1 ∧ m = n := by simpa using h2
  exact hne h3.1.symm

/-- The per-element results of a loop, one per input element. -/
theorem loopOuts_length (net : Net) (d wd : List String) (pfx : String) :
    ∀ (rs : List RefElem) (idx : Nat), (loopOuts net d wd pfx idx rs).length = rs.length := by
  intro rs
  induction rs with
  | nil => intro idx; rfl
  | cons r rs ih => intro idx; simp [loopOuts, ih (idx + 1)]

/-- Dropping the head flags from the flagged stylesheet results recovers
the plain loop results. -/
theorem zip_unflag (as : List CssLink) (bs : List (Option RefElem))
    (h : bs.length = as.length) :
    (List.zipWith
        (fun (cl : CssLink) (o : Option RefElem) =>
          o.map (fun e => ({ inHead := cl.inHead, elem := e } : CssLink)))
        as bs).map (fun o => o.map CssLink.elem) = bs := by
  induction as generalizing bs with
  | nil =>
    have : bs = [] := List.length_eq_zero.mp (by simpa using h)
    simp [this]
  | cons a as ih =>
    cases bs with
    | nil => simp at h
    | cons b bs2 =>
      simp only [List.zipWith_cons_cons, List.map_cons]
      have hhead : Option.map CssLink.elem
          (Option.map (fun e => ({ inHead := a.inHead, elem := e } : CssLink)) b) = b := by
        cases b <;> rfl
      rw [hhead, ih bs2 (by simpa using h)]

/-- When every write of the loop is readable back from the store, the C1
property holds of every discovered reference of the loop. -/
theorem allRefOk_of_reads (net : Net) (d wd : List String) (pfx : String) (fs : Store) :
    ∀ (rs : List RefElem) (idx : Nat),
      (∀ p b, (p, b) ∈ loopWrites net d pfx idx rs → fs.read p = some b) →
      allRefOk net d wd pfx idx rs (loopOuts net d wd pfx idx rs) fs = true := by
  intro rs
  induction rs with
  | nil => intro idx h; rfl
  | cons r rs ih =>
    intro idx h
    simp only [loopOuts, allRefOk, Bool.and_eq_true]
    refine ⟨?_, ?_⟩
    · cases hr : r.src with
      | none => simp [refOk, hr]
      | some s =>
        by_cases hs : s = ""
        · simp [refOk, hr, hs]
        · cases hnet : net (absolute_url s) with
          | none => simp [refOk, elemOutCssJs, hr, hs, hnet]
          | some b =>
            have hw : (get_local_path (absolute_url s) d pfx idx, b) ∈
                loopWrites net d pfx idx (r :: rs) := by
              simp [loopWrites, elemWrite, hr, hs, hnet]
            have hread := h _ _ hw
            simp [refOk, elemOutCssJs, hr, hs, hnet, hread]
    · refine ih (idx + 1) (fun p b hm => h p b ?_)
      have : loopWrites net d pfx idx (r :: rs) =
          (elemWrite net d pfx idx r).toList ++ loopWrites net d pfx (idx + 1) rs := rfl
      rw [this]
      exact List.mem_append_right _ hm

/-- The C1 property holds of every audio reference unconditionally: a
skipped element is not a discovered reference and every other audio
element is removed from the document. -/
theorem allRefOk_audio (net : Net) (d wd : List String) (pfx : String) (fs : Store) :
    ∀ (rs : List RefElem) (idx : Nat),
      allRefOk net d wd pfx idx rs (rs.map elemOutAudio) fs = true := by
  intro rs
  induction rs with
  | nil => intro idx; rfl
  | cons r rs ih =>
    intro idx
    simp only [List.map_cons, allRefOk, Bool.and_eq_true]
    refine ⟨?_, ih (idx + 1)⟩
    cases hr : r.src with
    | none => simp [refOk, elemOutAudio, hr]
    | some s =>
      by_cases hs : s = ""
      · simp [refOk, elemOutAudio, hr, hs]
      · simp [refOk, elemOutAudio, hr, hs]

/-- Any over a reversed list. -/
theorem any_reverse (l : List Char) (p : Char → Bool) : l.reverse.any p = l.any p := by
  simp [List.any_eq_true]

/-- Splitting the extension off a name of the shape `y ++ ".mp3"` where
`y` contains a non-dot character recovers `y` and `".mp3"`. -/
theorem splitext_append_mp3 (y : String) (hy : y.toList.any (fun c => c ≠ '.') = true) :
    splitext (y ++ ".mp3") = (y, ".mp3") := by
  unfold splitext
  have hrev : (y ++ ".mp3").toList.reverse = '3' :: 'p' :: 'm' :: '.' :: y.toList.reverse := by
    show ((y ++ ".mp3").data).reverse = '3' :: 'p' :: 'm' :: '.' :: y.data.reverse
    rw [String.data_append]
    simp
  have hex : ∃ x ∈ y.data, ¬x = '.' := by
    have hh := List.any_eq_true.mp hy
    simpa using hh
  have h1 : extSplitRev ('3' :: 'p' :: 'm' :: '.' :: y.toList.reverse) =
      some (['3', 'p', 'm', '.'], y.toList.reverse) := by
    simp [extSplitRev, hex]
  rw [hrev, h1]
  show (y.toList.reverse.reverse.asString, ['3', 'p', 'm', '.'].reverse.asString) = (y, ".mp3")
  rw [List.reverse_reverse]
  rfl

/-- A string extended by `".mp3"` ends with `".mp3"`. -/
theorem strEndsWith_mp3 (x : String) : strEndsWith (x ++ ".mp3") ".mp3" = true := by
  rw [strEndsWith, List.isSuffixOf_iff_suffix]
  refine ⟨x.toList, ?_⟩
  show x.data ++ (".mp3").data = (x ++ ".mp3").data
  rw [String.data_append]

/-- The last segment of a directory extended by one file name is that
file name. -/
theorem lastSeg_append (dir : List String) (n : String) :
    lastSeg (dir ++ [n]) = n := by
  simp [lastSeg]

-- -------- C5 --------

/-- C5: for every input that starts with the scheme prefix the code
recognises (`"http"`, covering the http and https absolute URLs the site
uses), the fetch URL is the input unchanged; for every other input it is
the fixed site origin joined with "/dictionnaires/", the chosen direction
and the raw input, in that order. -/
theorem build_url_cases (w d : String) :
    (pyStartsWith w "http" = true → build_url w d = w) ∧
    (pyStartsWith w "http" = false →
      build_url w d = BASE_URL ++ "/dictionnaires/" ++ d ++ "/" ++ w) := by
  constructor <;> intro h <;> simp [build_url, h]

/-- Witness for C5 at a URL input and at a bare-word input. -/
theorem build_url_cases_witness :
    build_url "https://www.larousse.fr/dictionnaires/francais-anglais/chat"
        "francais-anglais" =
      "https://www.larousse.fr/dictionnaires/francais-anglais/chat" ∧
    build_url "chat" "francais-anglais" =
      "https://www.larousse.fr/dictionnaires/francais-anglais/chat" :=
  ⟨(build_url_cases _ _).1 (by decide),
   ((build_url_cases "chat" "francais-anglais").2 (by decide)).trans (by decide)⟩

-- -------- C2 --------

/-- The transliteration table emits ASCII characters only. -/
theorem uniTable_ascii (c : Char) : (uniTable c).all (fun a => a.toNat < 128) = true := by
  unfold uniTable
  repeat' split
  all_goals decide

/-- The transliteration of any character list is pure ASCII. -/
theorem unidecode_ascii_aux (l : List Char) :
    ((l.map unidecodeChar).flatten).all (fun c => c.toNat < 128) = true := by
  induction l with
  | nil => rfl
  | cons c l ih =>
    simp only [List.map_cons, List.flatten_cons, List.all_append, Bool.and_eq_true]
    refine ⟨?_, ih⟩
    by_cases h : c.toNat < 128
    · simp [unidecodeChar, h]
    · simp only [unidecodeChar, if_neg h]
      exact uniTable_ascii c

/-- C2 amended: the safe name is always pure ASCII (diacritics are folded
to ASCII replacements), but ASCII characters of the input — including
path separators and other filesystem-unsafe characters — pass through
the transliteration unchanged. -/
theorem safeName_ascii (w : String) :
    (safeNameOf w).toList.all (fun c => c.toNat < 128) = true :=
  unidecode_ascii_aux (rawWordOf w).toList

/-- C2 fails as stated: the ASCII input "a/b" is its own safe name, which
contains the path separator. -/
theorem safeName_unsafe_cex :
    safeNameOf "a/b" = "a/b" ∧ ((safeNameOf "a/b").toList.contains '/') = true := by
  decide

-- -------- C7 --------

/-- C7 amended: for a non-audio kind, references whose local file names
are derived from their URLs (nonempty, at most 100 characters, hence not
synthesized) receive distinct local paths whenever the derived names
differ; a collision therefore requires two references to derive or
synthesize the same file name, which distinct URLs can do. -/
theorem get_local_path_distinct (u1 u2 : String) (dir : List String)
    (p1 p2 : String) (i1 i2 : Nat)
    (hk : lastSeg dir ≠ "audio")
    (h1 : derivedName u1 ≠ "") (h1l : (derivedName u1).length ≤ 100)
    (h2 : derivedName u2 ≠ "") (h2l : (derivedName u2).length ≤ 100)
    (hne : derivedName u1 ≠ derivedName u2) :
    get_local_path u1 dir p1 i1 ≠ get_local_path u2 dir p2 i2 := by
  have e1 : get_local_path u1 dir p1 i1 = dir ++ [derivedName u1] := by
    simp only [get_local_path]
    rw [if_neg (not_or.mpr ⟨h1, by omega⟩), if_neg hk]
  have e2 : get_local_path u2 dir p2 i2 = dir ++ [derivedName u2] := by
    simp only [get_local_path]
    rw [if_neg (not_or.mpr ⟨h2, by omega⟩), if_neg hk]
  rw [e1, e2]
  intro heq
  exact hne (by simpa using List.append_cancel_left heq)

/-- Witness for the amended C7 on two distinct stylesheet URLs. -/
theorem get_local_path_distinct_witness :
    get_local_path "https://www.larousse.fr/a/main.css" ["w", "css"] "style" 0 ≠
      get_local_path "https://www.larousse.fr/b/other.css" ["w", "css"] "style" 1 :=
  get_local_path_distinct _ _ _ _ _ _ _ (by decide) (by decide) (by decide)
    (by decide) (by decide) (by decide)

/-- C7 fails as stated: two distinct URLs sharing their final path
segment derive the same non-synthesized file name and collide on the same
local path, even at different sequence indices. -/
theorem get_local_path_collision_cex :
    ("https://a.example/s.css" : String) ≠ "https://b.example/s.css" ∧
    derivedName "https://a.example/s.css" = "s.css" ∧
    derivedName "https://b.example/s.css" = "s.css" ∧
    get_local_path "https://a.example/s.css"
        ["Learning", "French", "Larousse", "chat", "css"] "style" 0 =
      get_local_path "https://b.example/s.css"
        ["Learning", "French", "Larousse", "chat", "css"] "style" 1 := by
  decide

-- -------- C8 --------

/-- C8: the candidate local file name is the final segment of the URL
path with any query or fragment suffix stripped; when that candidate is
empty or longer than 100 characters the name is synthesized from the
kind prefix, the sequence index and the kind extension; and for the
audio kind the produced file name always ends in ".mp3", whatever the
derived name was. -/
theorem get_local_path_spec (url : String) (dir : List String) (pfx : String)
    (idx : Nat) :
    (derivedName url ≠ "" → (derivedName url).length ≤ 100 → lastSeg dir ≠ "audio" →
      get_local_path url dir pfx idx = dir ++ [derivedName url]) ∧
    ((derivedName url = "" ∨ (derivedName url).length > 100) →
      get_local_path url dir pfx idx =
        dir ++ [pfx ++ "_" ++ Nat.repr idx ++ ext_map (lastSeg dir)]) ∧
    (lastSeg dir = "audio" →
      strEndsWith (lastSeg (get_local_path url dir pfx idx)) ".mp3" = true) := by
  refine ⟨?_, ?_, ?_⟩
  · intro h1 h1l hk
    simp only [get_local_path]
    rw [if_neg (not_or.mpr ⟨h1, by omega⟩), if_neg hk]
  · intro h
    simp only [get_local_path]
    rw [if_pos h]
    by_cases hk : lastSeg dir = "audio"
    · rw [if_pos hk, hk]
      have hy : (pfx ++ "_" ++ Nat.repr idx).toList.any (fun c => c ≠ '.') = true := by
        refine List.any_eq_true.mpr ⟨'_', ?_, by decide⟩
        show '_' ∈ (pfx ++ "_" ++ Nat.repr idx).data
        rw [String.data_append, String.data_append]
        simp
      rw [show ext_map "audio" = ".mp3" from rfl,
        show pfx ++ "_" ++ Nat.repr idx ++ ".mp3" =
          (pfx ++ "_" ++ Nat.repr idx) ++ ".mp3" from rfl,
        splitext_append_mp3 _ hy]
    · rw [if_neg hk]
  · intro hk
    simp only [get_local_path]
    rw [if_pos hk]
    split
    · rw [hk]
      have hy : (pfx ++ "_" ++ Nat.repr idx).toList.any (fun c => c ≠ '.') = true := by
        refine List.any_eq_true.mpr ⟨'_', ?_, by decide⟩
        show '_' ∈ (pfx ++ "_" ++ Nat.repr idx).data
        rw [String.data_append, String.data_append]
        simp
      rw [show ext_map "audio" = ".mp3" from rfl,
        show pfx ++ "_" ++ Nat.repr idx ++ ".mp3" =
          (pfx ++ "_" ++ Nat.repr idx) ++ ".mp3" from rfl,
        splitext_append_mp3 _ hy, lastSeg_append]
      exact strEndsWith_mp3 _
    · rw [lastSeg_append]
      exact strEndsWith_mp3 _

/-- Witness for C8: a URL-derived name, a synthesized name for a URL with
an empty final segment, and the forced ".mp3" extension for audio. -/
theorem get_local_path_spec_witness :
    get_local_path "https://www.larousse.fr/a/main.css" ["w", "css"] "style" 0 =
      ["w", "css"] ++ [derivedName "https://www.larousse.fr/a/main.css"] ∧
    get_local_path "https://www.larousse.fr/" ["w", "js"] "script" 3 =
      ["w", "js"] ++ ["script" ++ "_" ++ Nat.repr 3 ++ ext_map (lastSeg ["w", "js"])] ∧
    strEndsWith (lastSeg (get_local_path "https://x.test/chat.wav" ["w", "audio"] "chat" 1))
      ".mp3" = true :=
  ⟨(get_local_path_spec "https://www.larousse.fr/a/main.css" ["w", "css"] "style" 0).1
      (by decide) (by decide) (by decide),
   (get_local_path_spec "https://www.larousse.fr/" ["w", "js"] "script" 3).2.1
      (Or.inl (by decide)),
   (get_local_path_spec "https://x.test/chat.wav" ["w", "audio"] "chat" 1).2.2
      (by decide)⟩

-- -------- C3 --------

/-- C3 amended: a render failure is caught (the run ends in the reported
render-failure outcome rather than an escaping exception), no download is
attempted and no file is written — but the word directory and its three
asset subdirectories have already been created before the renderer ran,
so directory output does exist. -/
theorem scrape_renderFailed (net : Net) (w d : String) :
    (scrape_larousse net none w d).outcome = Outcome.renderFailed ∧
    (scrape_larousse net none w d).fs = [] ∧
    (scrape_larousse net none w d).attempts = [] ∧
    (scrape_larousse net none w d).dirs = ensure_paths (safeNameOf w) ∧
    (scrape_larousse net none w d).dirs ≠ [] :=
  ⟨rfl, rfl, rfl, rfl, by simp [scrape_larousse, ensure_paths]⟩

/-- C3 fails as stated: a failed render for the word "chat" still leaves
the four created directories behind. -/
theorem scrape_renderFailed_dirs_cex :
    (scrape_larousse (fun _ => none) none "chat" "francais-anglais").dirs =
      [["Learning", "French", "Larousse", "chat"],
       ["Learning", "French", "Larousse", "chat", "audio"],
       ["Learning", "French", "Larousse", "chat", "css"],
       ["Learning", "French", "Larousse", "chat", "js"]] := by
  decide

-- -------- C6 --------

/-- C6: when none of the content-region selectors matches, the run stops
before the asset localizer: no download is attempted, nothing is written,
and the run ends with the no-article outcome. -/
theorem scrape_noArticle (net : Net) (doc : Document) (w d : String)
    (h : doc.article = none) :
    (scrape_larousse net (some doc) w d).attempts = [] ∧
    (scrape_larousse net (some doc) w d).fs = [] ∧
    (scrape_larousse net (some doc) w d).outcome = Outcome.noArticle := by
  refine ⟨?_, ?_, ?_⟩ <;> simp [scrape_larousse, h]

/-- Witness for C6: an article-less document with a stylesheet link and a
responsive network still triggers no download. -/
theorem scrape_noArticle_witness :
    (scrape_larousse (fun _ => some [1])
        (some ⟨[⟨true, ⟨some "/a.css"⟩⟩], [⟨some "/b.js"⟩], none, some (some "t")⟩)
        "chat" "francais-anglais").attempts = [] ∧
    (scrape_larousse (fun _ => some [1])
        (some ⟨[⟨true, ⟨some "/a.css"⟩⟩], [⟨some "/b.js"⟩], none, some (some "t")⟩)
        "chat" "francais-anglais").fs = [] ∧
    (scrape_larousse (fun _ => some [1])
        (some ⟨[⟨true, ⟨some "/a.css"⟩⟩], [⟨some "/b.js"⟩], none, some (some "t")⟩)
        "chat" "francais-anglais").outcome = Outcome.noArticle :=
  scrape_noArticle _ _ _ _ rfl

/-- A completed run (render succeeded, an article and a title element
exist), expressed through the ghost characterizations of the loops. -/
theorem scrape_eq (net : Net) (doc : Document) (w dir : String) (art : Article)
    (t : Option String) (hart : doc.article = some art) (ht : doc.titleText = some t) :
    scrape_larousse net (some doc) w dir =
      { dirs := ensure_paths (safeNameOf w),
        attempts :=
          ((doc.cssLinks.map CssLink.elem).map elemAttempt).flatten ++
            (doc.scripts.map elemAttempt).flatten ++
            (art.audios.map elemAttempt).flatten,
        fs := (loopWrites net (ROOT_DIR ++ [safeNameOf w] ++ ["audio"]) (safeNameOf w) 0
            art.audios).reverse ++
          ((loopWrites net (ROOT_DIR ++ [safeNameOf w] ++ ["js"]) "script" 0
              doc.scripts).reverse ++
            (loopWrites net (ROOT_DIR ++ [safeNameOf w] ++ ["css"]) "style" 0
              (doc.cssLinks.map CssLink.elem)).reverse),
        cssOut := List.zipWith
          (fun cl o => o.map (fun e => { inHead := cl.inHead, elem := e }))
          doc.cssLinks
          (loopOuts net (ROOT_DIR ++ [safeNameOf w] ++ ["css"])
            (ROOT_DIR ++ [safeNameOf w]) "style" 0 (doc.cssLinks.map CssLink.elem)),
        jsOut := loopOuts net (ROOT_DIR ++ [safeNameOf w] ++ ["js"])
          (ROOT_DIR ++ [safeNameOf w]) "script" 0 doc.scripts,
        audioOut := art.audios.map elemOutAudio,
        audioPaths := (loopWrites net (ROOT_DIR ++ [safeNameOf w] ++ ["audio"])
          (safeNameOf w) 0 art.audios).map Prod.fst,
        cssCount := loopCount net (ROOT_DIR ++ [safeNameOf w] ++ ["css"]) "style" 0
          (doc.cssLinks.map CssLink.elem),
        jsCount := loopCount net (ROOT_DIR ++ [safeNameOf w] ++ ["js"]) "script" 0
          doc.scripts,
        audioCount := loopCount net (ROOT_DIR ++ [safeNameOf w] ++ ["audio"])
          (safeNameOf w) 0 art.audios,
        outcome := Outcome.wrote
          (ROOT_DIR ++ [safeNameOf w] ++ [safeNameOf w ++ ".html"])
          { title := titleOr t ("Entry for " ++ safeNameOf w),
            headLinks := (((List.zipWith
                (fun cl o => o.map (fun e => { inHead := cl.inHead, elem := e }))
                doc.cssLinks
                (loopOuts net (ROOT_DIR ++ [safeNameOf w] ++ ["css"])
                  (ROOT_DIR ++ [safeNameOf w]) "style" 0
                  (doc.cssLinks.map CssLink.elem))).filterMap id).filter
              (fun cl => cl.inHead)).map CssLink.elem,
            audioAnchors := (((loopWrites net
                (ROOT_DIR ++ [safeNameOf w] ++ ["audio"]) (safeNameOf w) 0
                art.audios).map Prod.fst).map
              (fun p => relpathUnder p (ROOT_DIR ++ [safeNameOf w]))).take
              art.speakerIcons,
            bodyScripts := ((loopOuts net (ROOT_DIR ++ [safeNameOf w] ++ ["js"])
                (ROOT_DIR ++ [safeNameOf w]) "script" 0
                doc.scripts).filterMap id).filter (fun r => truthy r.src) } } := by
  simp only [scrape_larousse, hart, ht, localizeLoop_eq, audioLoop_eq,
    List.nil_append, List.append_nil, List.append_assoc]

-- -------- C9 --------

/-- C9 amended: when the rendered document has a title element, assembly
always succeeds and the output title is that element text, or the
generated fallback naming the entry when the text is empty or missing;
but when the document has no title element at all, the title lookup of
the assembly step raises an attribute error and no output document is
written. -/
theorem scrape_title (net : Net) (doc : Document) (w d : String)
    (art : Article) (hart : doc.article = some art) :
    (∀ t, doc.titleText = some t →
      (scrape_larousse net (some doc) w d).outcome.titleOf =
        some (titleOr t ("Entry for " ++ safeNameOf w))) ∧
    (doc.titleText = none →
      (scrape_larousse net (some doc) w d).outcome = Outcome.raisedNoTitle) := by
  constructor
  · intro t ht
    rw [scrape_eq net doc w d art t hart ht]
    rfl
  · intro ht
    simp [scrape_larousse, hart, ht]

/-- Witness for the amended C9: a title element with `None` text falls
back to the generated title; a missing title element raises. -/
theorem scrape_title_witness :
    (scrape_larousse (fun _ => none)
        (some ⟨[], [], some ⟨[], 0⟩, some none⟩) "chat" "francais-anglais").outcome.titleOf =
      some (titleOr none ("Entry for " ++ safeNameOf "chat")) ∧
    (scrape_larousse (fun _ => none)
        (some ⟨[], [], some ⟨[], 0⟩, none⟩) "chat" "francais-anglais").outcome =
      Outcome.raisedNoTitle :=
  ⟨(scrape_title _ _ _ _ _ rfl).1 none rfl,
   (scrape_title _ _ _ _ _ rfl).2 rfl⟩

/-- C9 fails as stated: a rendered page with an article but no title
element makes the assembly step raise instead of using the fallback, so
assembly does fail on a document lacking title text. -/
theorem scrape_noTitle_cex :
    (scrape_larousse (fun _ => none)
        (some ⟨[], [], some ⟨[], 0⟩, none⟩) "chat" "francais-anglais").outcome =
      Outcome.raisedNoTitle := by
  decide

-- -------- C4 --------

/-- C4 amended: on a successful download the stylesheet and script loops
write the bytes to the derived local path, rewrite the source attribute
to the path relative to the word directory, and count one success; the
audio loop also writes the bytes, counts one success and records the
relative path, but removes the element instead of rewriting its source
attribute. -/
theorem localize_success (net : Net) (d wd : List String) (pfx word : String)
    (idx : Nat) (r : RefElem) (st : Loc) (rs : List RefElem) (s : String) (b : Bytes)
    (hs : r.src = some s) (hne : s ≠ "") (hnet : net (absolute_url s) = some b) :
    localizeStep net d wd pfx idx r st =
      (some { src := some (relpathUnder (get_local_path (absolute_url s) d pfx idx) wd) },
       { attempts := st.attempts ++ [absolute_url s],
         fs := Store.write st.fs (get_local_path (absolute_url s) d pfx idx) b },
       true) ∧
    audioStep net d wd word idx r st =
      (none,
       { attempts := st.attempts ++ [absolute_url s],
         fs := Store.write st.fs (get_local_path (absolute_url s) d word idx) b },
       true, [get_local_path (absolute_url s) d word idx]) ∧
    (localizeLoop net d wd pfx idx (r :: rs) st).2.2 =
      1 + (localizeLoop net d wd pfx (idx + 1) rs
        ((localizeStep net d wd pfx idx r st).2.1)).2.2 ∧
    (audioLoop net d wd word idx (r :: rs) st).2.2.1 =
      1 + (audioLoop net d wd word (idx + 1) rs
        ((audioStep net d wd word idx r st).2.1)).2.2.1 := by
  have h1 : localizeStep net d wd pfx idx r st =
      (some { src := some (relpathUnder (get_local_path (absolute_url s) d pfx idx) wd) },
       { attempts := st.attempts ++ [absolute_url s],
         fs := Store.write st.fs (get_local_path (absolute_url s) d pfx idx) b },
       true) := by
    simp [localizeStep, download_asset, hs, hne, hnet, Store.write]
  have h2 : audioStep net d wd word idx r st =
      (none,
       { attempts := st.attempts ++ [absolute_url s],
         fs := Store.write st.fs (get_local_path (absolute_url s) d word idx) b },
       true, [get_local_path (absolute_url s) d word idx]) := by
    simp [audioStep, download_asset, hs, hne, hnet, Store.write]
  refine ⟨h1, h2, ?_, ?_⟩
  · conv =>
      lhs
      rw [localizeLoop]
    rw [h1]
    simp
  · conv =>
      lhs
      rw [audioLoop]
    rw [h2]
    simp

/-- Witness for the amended C4: one concrete successful stylesheet
download and one concrete successful audio download. -/
theorem localize_success_witness :
    localizeStep (fun u => if u = absolute_url "/a.css" then some [1] else none)
        ["w", "css"] ["w"] "style" 0 { src := some "/a.css" }
        { attempts := [], fs := [] } =
      (some (RefElem.mk (some
          (relpathUnder (get_local_path (absolute_url "/a.css") ["w", "css"] "style" 0) ["w"]))),
       { attempts := [] ++ [absolute_url "/a.css"],
         fs := Store.write [] (get_local_path (absolute_url "/a.css") ["w", "css"] "style" 0) [1] },
       true) ∧
    audioStep (fun u => if u = absolute_url "/a.css" then some [1] else none)
        ["w", "css"] ["w"] "chat" 0 { src := some "/a.css" }
        { attempts := [], fs := [] } =
      (none,
       { attempts := [] ++ [absolute_url "/a.css"],
         fs := Store.write [] (get_local_path (absolute_url "/a.css") ["w", "css"] "chat" 0) [1] },
       true, [get_local_path (absolute_url "/a.css") ["w", "css"] "chat" 0]) :=
  ⟨(localize_success (fun u => if u = absolute_url "/a.css" then some [1] else none)
      ["w", "css"] ["w"] "style" "chat" 0 { src := some "/a.css" }
      { attempts := [], fs := [] } [] "/a.css" [1] rfl (by decide) (by decide)).1,
   (localize_success (fun u => if u = absolute_url "/a.css" then some [1] else none)
      ["w", "css"] ["w"] "style" "chat" 0 { src := some "/a.css" }
      { attempts := [], fs := [] } [] "/a.css" [1] rfl (by decide) (by decide)).2.1⟩

/-- C4 fails as stated for the audio kind: a successful audio download
(here counted, with the bytes written) still removes the audio element
from the document instead of rewriting its source attribute. -/
theorem audio_success_removed_cex :
    ((scrape_larousse (fun _ => some [7])
        (some ⟨[], [], some ⟨[{ src := some "/son.mp3" }], 0⟩, some (some "t")⟩)
        "chat" "francais-anglais").audioOut = [none]) ∧
    ((scrape_larousse (fun _ => some [7])
        (some ⟨[], [], some ⟨[{ src := some "/son.mp3" }], 0⟩, some (some "t")⟩)
        "chat" "francais-anglais").audioCount = 1) ∧
    ((scrape_larousse (fun _ => some [7])
        (some ⟨[], [], some ⟨[{ src := some "/son.mp3" }], 0⟩, some (some "t")⟩)
        "chat" "francais-anglais").fs.read
      ["Learning", "French", "Larousse", "chat", "audio", "son.mp3"] = some [7]) := by
  decide

/-- Positional characterization of the stylesheet and script loop
results. -/
theorem loopOuts_get (net : Net) (d wd : List String) (pfx : String) :
    ∀ (rs : List RefElem) (idx i : Nat),
      (loopOuts net d wd pfx idx rs).get? i =
        (rs.get? i).map (fun r => elemOutCssJs net d wd pfx (idx + i) r) := by
  intro rs
  induction rs with
  | nil => intro idx i; simp [loopOuts]
  | cons r rs ih =>
    intro idx i
    cases i with
    | zero => simp [loopOuts]
    | succ j =>
      simp only [loopOuts, List.get?_cons_succ, ih (idx + 1) j]
      have : idx + 1 + j = idx + (j + 1) := by omega
      rw [this]

-- -------- C10 --------

/-- C10: an element whose source attribute is missing or empty is skipped
entirely by every localization loop — no download attempt, no rewrite, no
removal, no state change — and a source-less stylesheet link sitting in
the head survives unchanged into the head links of the final document. -/
theorem skip_sourceless (net : Net) (d wd : List String) (pfx word : String)
    (idx : Nat) (r : RefElem) (st : Loc)
    (doc : Document) (w dr : String) (art : Article) (t : Option String)
    (i : Nat) (cl : CssLink)
    (hsrc : r.src = none ∨ r.src = some "")
    (hart : doc.article = some art) (ht : doc.titleText = some t)
    (hcl : doc.cssLinks.get? i = some cl) (hflag : cl.inHead = true)
    (hclsrc : cl.elem.src = none ∨ cl.elem.src = some "") :
    localizeStep net d wd pfx idx r st = (some r, st, false) ∧
    audioStep net d wd word idx r st = (some r, st, false, []) ∧
    (scrape_larousse net (some doc) w dr).cssOut.get? i = some (some cl) ∧
    (∃ fd, (scrape_larousse net (some doc) w dr).outcome =
        Outcome.wrote (ROOT_DIR ++ [safeNameOf w] ++ [safeNameOf w ++ ".html"]) fd ∧
      cl.elem ∈ fd.headLinks) := by
  have hstep : localizeStep net d wd pfx idx r st = (some r, st, false) := by
    rcases hsrc with h | h <;> simp [localizeStep, h]
  have haudio : audioStep net d wd word idx r st = (some r, st, false, []) := by
    rcases hsrc with h | h <;> simp [audioStep, h]
  have hcssIn : (doc.cssLinks.map CssLink.elem).get? i = some cl.elem := by
    rw [List.get?_eq_getElem?, List.getElem?_map, ← List.get?_eq_getElem?, hcl]
    rfl
  have houts : (loopOuts net (ROOT_DIR ++ [safeNameOf w] ++ ["css"])
      (ROOT_DIR ++ [safeNameOf w]) "style" 0 (doc.cssLinks.map CssLink.elem)).get? i =
      some (some cl.elem) := by
    rw [loopOuts_get, hcssIn]
    rcases hclsrc with h | h <;> simp [elemOutCssJs, h]
  have hout : (scrape_larousse net (some doc) w dr).cssOut.get? i = some (some cl) := by
    rw [scrape_eq net doc w dr art t hart ht]
    show (List.zipWith
        (fun cl o => o.map (fun e => { inHead := cl.inHead, elem := e }))
        doc.cssLinks
        (loopOuts net (ROOT_DIR ++ [safeNameOf w] ++ ["css"])
          (ROOT_DIR ++ [safeNameOf w]) "style" 0
          (doc.cssLinks.map CssLink.elem))).get? i = some (some cl)
    rw [List.get?_zipWith', hcl, houts]
    simp
  refine ⟨hstep, haudio, hout, ?_⟩
  rw [scrape_eq net doc w dr art t hart ht]
  refine ⟨_, rfl, ?_⟩
  show cl.elem ∈ (((List.zipWith
      (fun cl o => o.map (fun e => { inHead := cl.inHead, elem := e }))
      doc.cssLinks
      (loopOuts net (ROOT_DIR ++ [safeNameOf w] ++ ["css"])
        (ROOT_DIR ++ [safeNameOf w]) "style" 0
        (doc.cssLinks.map CssLink.elem))).filterMap id).filter
    (fun cl => cl.inHead)).map CssLink.elem
  have hmem : (some cl : Option CssLink) ∈ List.zipWith
      (fun cl o => o.map (fun e => { inHead := cl.inHead, elem := e }))
      doc.cssLinks
      (loopOuts net (ROOT_DIR ++ [safeNameOf w] ++ ["css"])
        (ROOT_DIR ++ [safeNameOf w]) "style" 0
        (doc.cssLinks.map CssLink.elem)) := by
    have hout2 := hout
    rw [scrape_eq net doc w dr art t hart ht] at hout2
    exact List.get?_mem hout2
  have hmem2 : cl ∈ ((List.zipWith
      (fun cl o => o.map (fun e => { inHead := cl.inHead, elem := e }))
      doc.cssLinks
      (loopOuts net (ROOT_DIR ++ [safeNameOf w] ++ ["css"])
        (ROOT_DIR ++ [safeNameOf w]) "style" 0
        (doc.cssLinks.map CssLink.elem))).filterMap id) :=
    List.mem_filterMap.mpr ⟨some cl, hmem, rfl⟩
  exact List.mem_map.mpr ⟨cl, List.mem_filter.mpr ⟨hmem2, hflag⟩, rfl⟩

/-- Witness for C10: a head stylesheet link with an empty href survives
into the final head links, and the skip cases of both steps at a
concrete element. -/
theorem skip_sourceless_witness :
    localizeStep (fun _ => some [1]) ["w", "css"] ["w"] "style" 0 { src := none }
        { attempts := [], fs := [] } = (some { src := none }, { attempts := [], fs := [] }, false) ∧
    audioStep (fun _ => some [1]) ["w", "audio"] ["w"] "chat" 0 { src := none }
        { attempts := [], fs := [] } =
      (some { src := none }, { attempts := [], fs := [] }, false, []) ∧
    (scrape_larousse (fun _ => some [1])
        (some ⟨[⟨true, ⟨some ""⟩⟩], [], some ⟨[], 0⟩, some (some "t")⟩)
        "chat" "francais-anglais").cssOut.get? 0 = some (some ⟨true, ⟨some ""⟩⟩) ∧
    (∃ fd, (scrape_larousse (fun _ => some [1])
        (some ⟨[⟨true, ⟨some ""⟩⟩], [], some ⟨[], 0⟩, some (some "t")⟩)
        "chat" "francais-anglais").outcome =
        Outcome.wrote (ROOT_DIR ++ [safeNameOf "chat"] ++ [safeNameOf "chat" ++ ".html"]) fd ∧
      RefElem.mk (some "") ∈ fd.headLinks) := by
  have h := skip_sourceless (fun _ => some [1]) ["w", "css"] ["w"] "style" "chat" 0
    { src := none } { attempts := [], fs := [] }
    ⟨[⟨true, ⟨some ""⟩⟩], [], some ⟨[], 0⟩, some (some "t")⟩
    "chat" "francais-anglais" ⟨[], 0⟩ (some "t") 0 ⟨true, ⟨some ""⟩⟩
    (Or.inl rfl) rfl rfl rfl rfl (Or.inr rfl)
  exact ⟨h.1, by
    have h2 := skip_sourceless (fun _ => some [1]) ["w", "audio"] ["w"] "style" "chat" 0
      { src := none } { attempts := [], fs := [] }
      ⟨[⟨true, ⟨some ""⟩⟩], [], some ⟨[], 0⟩, some (some "t")⟩
      "chat" "francais-anglais" ⟨[], 0⟩ (some "t") 0 ⟨true, ⟨some ""⟩⟩
      (Or.inl rfl) rfl rfl rfl rfl (Or.inr rfl)
    exact h2.2.1, h.2.2.1, h.2.2.2⟩

/-- Paths of a reversed store. -/
theorem pathsOf_reverse (l : Store) : pathsOf l.reverse = (pathsOf l).reverse := by
  simp [pathsOf]

/-- Non-membership of a path passes to the reversed store. -/
theorem notMem_pathsOf_reverse (l : Store) (p : List String)
    (h : p ∉ pathsOf l) : p ∉ pathsOf l.reverse := by
  intro hx
  rw [pathsOf_reverse] at hx
  exact h (List.mem_reverse.mp hx)

/-- Membership of a path passes to the reversed store. -/
theorem mem_pathsOf_reverse (l : Store) (p : List String)
    (h : p ∈ pathsOf l) : p ∈ pathsOf l.reverse := by
  rw [pathsOf_reverse]
  exact List.mem_reverse.mpr h

/-- Distinctness of paths passes to the reversed store. -/
theorem nodup_pathsOf_reverse (l : Store) (h : (pathsOf l).Nodup) :
    (pathsOf l.reverse).Nodup := by
  rw [pathsOf_reverse]
  exact List.nodup_reverse.mpr h

/-- Reading the first block of an append, when the block holds the path
uniquely. -/
theorem store_read_append_left (l1 l2 : Store) (p : List String) (b : Bytes)
    (hmem : (p, b) ∈ l1) (hnd : (pathsOf l1).Nodup) :
    Store.read (l1 ++ l2) p = some b := by
  induction l1 with
  | nil => simp at hmem
  | cons e l ih =>
    simp only [pathsOf, List.map_cons, List.nodup_cons] at hnd
    rcases List.mem_cons.mp hmem with h | h
    · rw [List.cons_append, store_read_cons, if_pos (by rw [← h]), ← h]
    · have hne : e.1 ≠ p := by
        intro he
        exact hnd.1 (he ▸ List.mem_map.mpr ⟨(p, b), h, rfl⟩)
      rw [List.cons_append, store_read_cons, if_neg hne]
      exact ih h (by simpa [pathsOf] using hnd.2)

-- -------- C1 --------

/-- C1 amended: in a completed run in which no two same-kind references
derive the same local path (the condition the claim omits), every
discovered stylesheet, script and audio reference either succeeded —
with the source rewritten to the local relative path and the local file
holding a byte-identical copy of the downloaded content — or is entirely
absent from the final document, and every audio-derived anchor points at
an existing local file. -/
theorem scrape_no_broken_refs (net : Net) (doc : Document) (w dir : String)
    (art : Article) (t : Option String)
    (hart : doc.article = some art) (ht : doc.titleText = some t)
    (hcss : (pathsOf (loopWrites net (ROOT_DIR ++ [safeNameOf w] ++ ["css"]) "style" 0
      (doc.cssLinks.map CssLink.elem))).Nodup)
    (hjs : (pathsOf (loopWrites net (ROOT_DIR ++ [safeNameOf w] ++ ["js"]) "script" 0
      doc.scripts)).Nodup) :
    C1check net doc w dir = true := by
  simp only [C1check, hart]
  rw [scrape_eq net doc w dir art t hart ht]
  dsimp only
  simp only [Bool.and_eq_true]
  refine ⟨⟨⟨?_, ?_⟩, ?_⟩, ?_⟩
  · -- stylesheet references
    rw [zip_unflag _ _ ((loopOuts_length _ _ _ _ _ _).trans (List.length_map _ _))]
    refine allRefOk_of_reads _ _ _ _ _ _ _ (fun p b hmem => ?_)
    obtain ⟨n, hn⟩ := loopWrites_shape net (ROOT_DIR ++ [safeNameOf w] ++ ["css"])
      "style" _ 0 (p, b) hmem
    have hn2 : p = ROOT_DIR ++ [safeNameOf w] ++ ["css"] ++ [n] := hn
    have hp : p = (ROOT_DIR ++ [safeNameOf w]) ++ ["css", n] := by
      rw [hn2]; simp
    rw [store_read_append_right _ _ p (notMem_pathsOf_reverse _ _ (by
      rw [hp]
      exact notMem_loopWrites_of_ne net (ROOT_DIR ++ [safeNameOf w]) "css" "audio"
        (safeNameOf w) n (by decide) art.audios 0))]
    rw [store_read_append_right _ _ p (notMem_pathsOf_reverse _ _ (by
      rw [hp]
      exact notMem_loopWrites_of_ne net (ROOT_DIR ++ [safeNameOf w]) "css" "js"
        "script" n (by decide) doc.scripts 0))]
    exact store_read_of_mem_nodup _ p b (List.mem_reverse.mpr hmem)
      (nodup_pathsOf_reverse _ hcss)
  · -- script references
    refine allRefOk_of_reads _ _ _ _ _ _ _ (fun p b hmem => ?_)
    obtain ⟨n, hn⟩ := loopWrites_shape net (ROOT_DIR ++ [safeNameOf w] ++ ["js"])
      "script" _ 0 (p, b) hmem
    have hn2 : p = ROOT_DIR ++ [safeNameOf w] ++ ["js"] ++ [n] := hn
    have hp : p = (ROOT_DIR ++ [safeNameOf w]) ++ ["js", n] := by
      rw [hn2]; simp
    rw [store_read_append_right _ _ p (notMem_pathsOf_reverse _ _ (by
      rw [hp]
      exact notMem_loopWrites_of_ne net (ROOT_DIR ++ [safeNameOf w]) "js" "audio"
        (safeNameOf w) n (by decide) art.audios 0))]
    exact store_read_append_left _ _ p b (List.mem_reverse.mpr hmem)
      (nodup_pathsOf_reverse _ hjs)
  · -- audio references
    exact allRefOk_audio _ _ _ _ _ _ _
  · -- audio-derived anchors
    refine List.all_eq_true.mpr (fun p hp => ?_)
    have hp2 : p ∈ pathsOf (loopWrites net (ROOT_DIR ++ [safeNameOf w] ++ ["audio"])
        (safeNameOf w) 0 art.audios) := by
      have := List.take_subset art.speakerIcons
        ((loopWrites net (ROOT_DIR ++ [safeNameOf w] ++ ["audio"])
          (safeNameOf w) 0 art.audios).map Prod.fst)
      exact this hp
    exact store_read_isSome_of_mem _ _ p (mem_pathsOf_reverse _ _ hp2)

/-- Witness for the amended C1: a run with one stylesheet, one script,
one audio reference and one speaker icon, all downloads succeeding. -/
theorem scrape_no_broken_refs_witness :
    C1check
      (fun u => if u = "https://www.larousse.fr/a.css" then some [1]
        else if u = "https://www.larousse.fr/b.js" then some [2]
        else if u = "https://www.larousse.fr/c.mp3" then some [3] else none)
      ⟨[⟨true, ⟨some "/a.css"⟩⟩], [⟨some "/b.js"⟩],
        some ⟨[⟨some "/c.mp3"⟩], 1⟩, some (some "t")⟩
      "chat" "francais-anglais" = true :=
  scrape_no_broken_refs
    (fun u => if u = "https://www.larousse.fr/a.css" then some [1]
      else if u = "https://www.larousse.fr/b.js" then some [2]
      else if u = "https://www.larousse.fr/c.mp3" then some [3] else none)
    ⟨[⟨true, ⟨some "/a.css"⟩⟩], [⟨some "/b.js"⟩],
      some ⟨[⟨some "/c.mp3"⟩], 1⟩, some (some "t")⟩
    "chat" "francais-anglais" ⟨[⟨some "/c.mp3"⟩], 1⟩ (some "t")
    rfl rfl (by decide) (by decide)

/-- C1 fails as stated: two stylesheet references on one page with
distinct URLs but the same final path segment derive the same local
path; both downloads succeed, the second write overwrites the first, and
the first reference remains in the document pointing at a file whose
content is not a byte-identical copy of its own remote content. -/
theorem scrape_broken_ref_cex :
    C1check
      (fun u => if u = "https://a.example/s.css" then some [1]
        else if u = "https://b.example/s.css" then some [2] else none)
      ⟨[⟨true, ⟨some "https://a.example/s.css"⟩⟩,
        ⟨true, ⟨some "https://b.example/s.css"⟩⟩],
        [], some ⟨[], 0⟩, some (some "t")⟩
      "chat" "francais-anglais" = false := by
  decide
